import Mathlib

/-!
# Index resolution over merged filesets, and the worker bucket gateway

A shallow embedding of `src/server/pkg/storage/fileset/index_resolver.go`
(`NewIndexResolver`, `mergeResolver.Iterate`) and of the bucket gateway that
`src/server/pfs/s3/worker_test.go` exercises.

Go errors are values of `Err`; a Go `panic` is `Except.error` carrying the panic
message.  Stateful collaborators (the caller's callback, the second reader) are
threaded explicitly through the writer pass.
-/

namespace Fileset

/-- A Go `error` value. -/
abbrev Err := String

/-- Modelled from the spec: `index.Index` is declared outside `src/`.  It is the
summary metadata of one file: its path, size, content hash, content type and
deletion flag. -/
structure Index where
  path : String
  size : Nat
  etag : String
  contentType : String
  deleted : Bool
  deriving DecidableEq, Repr

/-- Modelled from the spec: the File record a merge reader yields
(`*FileMergeReader`), declared outside `src/`.  `fullIdx` is the only field
`Iterate` assigns; `path` and `content` stand for everything else the record
carries. -/
structure File where
  path : String
  content : List Nat
  fullIdx : Option Index
  deriving DecidableEq, Repr

/-- Modelled from the spec: `MergeReader` is declared outside `src/`.  A reader
instance is the Files it still has to yield, in order, and the error its `Next`
returns once none is left (end of stream, or the upstream failure that cut the
stream short). -/
structure MergeReader where
  files : List File
  fail : Err
  deriving DecidableEq, Repr

/-- Modelled from the spec: `MergeReader.Next` pulls the next File, or fails. -/
def MergeReader.Next (mr : MergeReader) : Except Err (File × MergeReader) :=
  match mr.files with
  | [] => .error mr.fail
  | f :: rest => .ok (f, { mr with files := rest })

/-- Modelled from the spec: what a no-upload writer does when a reader is written
to it.  It finalizes `indexes` in order, calling its hook once per index, and
then ends with `failure` (an error of the reader or of the writer itself), if
any. -/
structure WriterPass where
  indexes : List Index
  failure : Option Err
  deriving DecidableEq, Repr

/-- Modelled from the spec: `Storage` is declared outside `src/`.  The only thing
`Iterate` asks of it is a no-upload writer; `noUpload` is the pass such a writer
performs over a given reader. -/
structure Storage where
  noUpload : MergeReader → WriterPass

/-- Modelled from the spec: the fileset `Writer`, declared outside `src/`, as
configured by `WithNoUpload`: the fileset name, the hook invoked once per
finalized index, and the pass it performs over a reader.  `τ` is the state the
hook closes over. -/
structure Writer (τ : Type) where
  fileSet : String
  indexFunc : Index → τ → Option Err × τ
  pass : MergeReader → WriterPass

/-- The `mergeSource` variant of `FileSource`, with the two fields
`NewIndexResolver` reads.  `getReader` is a Go closure that may answer
differently from call to call: `getReader k` is the result of the call that `k`
earlier calls preceded. -/
structure mergeSource where
  s : Storage
  getReader : Nat → Except Err MergeReader

/-- The resolver built by `NewIndexResolver`. -/
structure mergeResolver where
  s : Storage
  getReader : Nat → Except Err MergeReader

/-- The `FileSource` interface as a closed sum of its implementations: a merge
source, a merge resolver, and any other kind (named by `kind`). -/
inductive FileSource where
  | merge (x : mergeSource)
  | resolver (x : mergeResolver)
  | other (kind : String)

/-- True exactly on the `*mergeSource` variant. -/
def FileSource.isMerge : FileSource → Bool
  | .merge _ => true
  | _ => false

/-- `NewIndexResolver`: a type switch; the default arm panics. -/
def NewIndexResolver (x : FileSource) : Except String FileSource :=
  match x with
  | .merge x => .ok (.resolver { getReader := x.getReader, s := x.s })
  | _ => .error "cannot resolve indexes"

/-- The state the no-upload hook of `Iterate` closes over: the second reader,
the caller's callback state, and (ghost) the Files handed to the callback so
far, oldest first. -/
structure HookState (σ : Type) where
  mr2 : MergeReader
  user : σ
  calls : List File

/-- The assignment `fmr.fullIdx = idx`. -/
def File.withFullIdx (fmr : File) (idx : Index) : File :=
  { fmr with fullIdx := some idx }

/-- The closure passed to `WithNoUpload` in `Iterate`. -/
def resolveHook {σ : Type} (cb : σ → File → Option Err × σ) (idx : Index)
    (st : HookState σ) : Option Err × HookState σ :=
  match st.mr2.Next with
  | .error err => (some err, st)
  | .ok (fmr, mr2) =>
    let fmr := fmr.withFullIdx idx
    let r := cb st.user fmr
    (r.1, { mr2 := mr2, user := r.2, calls := st.calls ++ [fmr] })

/-- Modelled from the spec: `Storage.newWriter` with the `WithNoUpload` option,
both declared outside `src/`. -/
def Storage.newWriter {τ : Type} (s : Storage) (fileSet : String)
    (hook : Index → τ → Option Err × τ) : Writer τ :=
  { fileSet := fileSet, indexFunc := hook, pass := s.noUpload }

/-- Modelled from the spec: the writer loop behind `MergeReader.WriteTo`, declared
outside `src/`.  The hook runs once per finalized index; a hook error aborts the
pass and is returned unchanged; otherwise the pass ends with its own outcome. -/
def runPass {τ : Type} (hook : Index → τ → Option Err × τ) :
    List Index → Option Err → τ → Option Err × τ
  | [], failure, st => (failure, st)
  | idx :: rest, failure, st =>
    match hook idx st with
    | (some err, st) => (some err, st)
    | (none, st) => runPass hook rest failure st

/-- Modelled from the spec: `MergeReader.WriteTo`, declared outside `src/`: the
pass of the writer over this reader. -/
def MergeReader.WriteTo {τ : Type} (mr : MergeReader) (w : Writer τ) (st : τ) :
    Option Err × τ :=
  runPass w.indexFunc (w.pass mr).indexes (w.pass mr).failure st

/-- What one run of `Iterate` leaves behind: the returned error, the callback's
state, the Files handed to the callback (oldest first), whether a writer pass
was started, and what is left of the second reader. -/
structure Outcome (σ : Type) where
  err : Option Err
  user : σ
  calls : List File
  started : Bool
  rest : List File

/-- `mergeResolver.Iterate`.  `stopBefore` is the variadic parameter of the
source. -/
def mergeResolver.Iterate {σ : Type} (mr : mergeResolver)
    (cb : σ → File → Option Err × σ) (u : σ) (stopBefore : List String) : Outcome σ :=
  match mr.getReader 0 with
  | .error err => { err := some err, user := u, calls := [], started := false, rest := [] }
  | .ok mr1 =>
    match mr.getReader 1 with
    | .error err => { err := some err, user := u, calls := [], started := false, rest := [] }
    | .ok mr2 =>
      let w := mr.s.newWriter "" (resolveHook cb)
      let r := mr1.WriteTo w { mr2 := mr2, user := u, calls := [] }
      { err := r.1, user := r.2.user, calls := r.2.calls, started := true,
        rest := r.2.mr2.files }

/-- The results the callback gives when it is run on `files` one after the
other from state `u` (every File, whatever the earlier results), and the state
it ends in. -/
def replay {σ : Type} (cb : σ → File → Option Err × σ) : σ → List File → List (Option Err) × σ
  | u, [] => ([], u)
  | u, f :: fs => ((cb u f).1 :: (replay cb (cb u f).2 fs).1, (replay cb (cb u f).2 fs).2)

/-- The result of the `(k+1)`-th pull from a reader. -/
def MergeReader.pull (mr : MergeReader) : Nat → Except Err File
  | 0 => match mr.Next with
    | .error err => .error err
    | .ok (f, _) => .ok f
  | k + 1 => match mr.Next with
    | .error err => .error err
    | .ok (_, mr) => mr.pull k

/-- An index for `p` of `n` bytes. -/
def sampleIndex (p : String) (n : Nat) : Index :=
  { path := p, size := n, etag := "", contentType := "", deleted := false }

/-- A File at `p` whose index has not been resolved. -/
def sampleFile (p : String) : File := { path := p, content := [], fullIdx := none }

/-- A callback without state that accepts every File. -/
def acceptAll : Unit → File → Option Err × Unit := fun u _ => (none, u)

/-- A callback that counts its invocations and rejects the second one. -/
def rejectSecond : Nat → File → Option Err × Nat :=
  fun n _ => (if n = 1 then some "callback failed" else none, n + 1)

/-- Both readers yield `a`, `b`, `c`; the writer pass finalizes `a` and `b`. -/
def surplusResolver : mergeResolver :=
  { s := { noUpload := fun _ =>
      { indexes := [sampleIndex "a" 1, sampleIndex "b" 2], failure := none } },
    getReader := fun _ =>
      .ok { files := [sampleFile "a", sampleFile "b", sampleFile "c"], fail := "EOF" } }

/-- Both readers yield `a` only; the writer pass finalizes `a`, `b` and `c`. -/
def shortResolver : mergeResolver :=
  { s := { noUpload := fun _ =>
      { indexes := [sampleIndex "a" 1, sampleIndex "b" 2, sampleIndex "c" 3],
        failure := none } },
    getReader := fun _ => .ok { files := [sampleFile "a"], fail := "EOF" } }

/-- The writer pass finalizes an index for `a` while the second reader yields
`b`. -/
def divergedResolver : mergeResolver :=
  { s := { noUpload := fun _ => { indexes := [sampleIndex "a" 1], failure := none } },
    getReader := fun k =>
      if k = 0 then .ok { files := [sampleFile "a"], fail := "EOF" }
      else .ok { files := [sampleFile "b"], fail := "EOF" } }

/-- The first reader opens, the second does not. -/
def halfOpenResolver : mergeResolver :=
  { s := { noUpload := fun _ => { indexes := [sampleIndex "a" 1], failure := none } },
    getReader := fun k =>
      if k = 0 then .ok { files := [sampleFile "a"], fail := "EOF" }
      else .error "open failed" }

end Fileset

namespace S3

/-- Modelled from the spec: the `Bucket` record, declared outside `src/`, with
the fields `worker_test.go` fills in: a name mapped to a repository and a
commit. -/
structure Bucket where
  Repo : String
  Commit : String
  Name : String
  deriving DecidableEq, Repr

/-- Modelled from the spec: the error kinds of the protocol surface that the
worker driver (outside `src/`) answers with. -/
inductive S3Error where
  | NoSuchBucket
  | NoSuchKey
  | NotImplemented
  deriving DecidableEq, Repr

/-- Modelled from the spec: a stored object, with the metadata of its resolved
index. -/
structure Object where
  data : List Nat
  contentType : String
  etag : String
  deriving DecidableEq, Repr

/-- Modelled from the spec: the answer of `StatObject`. -/
structure ObjectInfo where
  ETag : String
  ContentType : String
  Size : Nat
  deriving DecidableEq, Repr

/-- Modelled from the spec: a layer entry is content or a deletion tombstone. -/
inductive Entry where
  | content (o : Object)
  | tombstone
  deriving DecidableEq, Repr

/-- Modelled from the spec: a layer holds at most one entry per path (layers are
internally deduplicated). -/
abbrev Layer := String → Option Entry

/-- Modelled from the spec: writing a path of a layer writes or overwrites its
entry. -/
def Layer.write (l : Layer) (path : String) (e : Entry) : Layer :=
  fun p => if p = path then some e else l p

/-- Modelled from the spec: the external version-control service, which the
gateway consumes and does not own.  `repos` are the repositories that exist,
`finished r c` is the readable layer of the finalized commit `c` of `r`, and
`pending r c` holds the entries written into `c` while it is open. -/
structure Pfs where
  repos : List String
  finished : String → String → Layer
  pending : String → String → Layer

/-- Modelled from the spec: the worker driver is its static configuration, the
input buckets and the output bucket (`NewWorkerDriver` lives outside `src/`). -/
structure WorkerDriver where
  inputBuckets : List Bucket
  outputBucket : Bucket

/-- Modelled from the spec: `NewWorkerDriver`. -/
def NewWorkerDriver (inputBuckets : List Bucket) (outputBucket : Bucket) : WorkerDriver :=
  { inputBuckets := inputBuckets, outputBucket := outputBucket }

/-- Modelled from the spec: the policy of a configured bucket, read-only input
(closed commit) or write-buffering output (open commit). -/
inductive Policy where
  | input
  | output
  deriving DecidableEq, Repr

/-- Modelled from the spec: the configured bucket set, the input buckets plus
the output bucket. -/
def WorkerDriver.names (d : WorkerDriver) : List String :=
  d.inputBuckets.map Bucket.Name ++ [d.outputBucket.Name]

/-- Modelled from the spec: bucket resolution, from a name to the configured
bucket and its policy. -/
def WorkerDriver.bucket (d : WorkerDriver) (name : String) : Option (Bucket × Policy) :=
  match d.inputBuckets.find? (fun b => b.Name = name) with
  | some b => some (b, .input)
  | none => if d.outputBucket.Name = name then some (d.outputBucket, .output) else none

/-- Modelled from the spec: `ListBuckets` of the worker driver (outside `src/`)
returns the configured bucket names, whatever repositories exist. -/
def WorkerDriver.ListBuckets (d : WorkerDriver) (_pfs : Pfs) : Except S3Error (List String) :=
  .ok d.names

/-- Modelled from the spec: `BucketExists` of the worker driver (outside `src/`)
is true iff the name is in the configured bucket set. -/
def WorkerDriver.BucketExists (d : WorkerDriver) (_pfs : Pfs) (name : String) :
    Except S3Error Bool :=
  .ok (decide (name ∈ d.names))

/-- Modelled from the spec: `MakeBucket` of the worker driver (outside `src/`)
is always rejected. -/
def WorkerDriver.MakeBucket (_d : WorkerDriver) (pfs : Pfs) (_name : String) :
    Except S3Error Unit × Pfs :=
  (.error .NotImplemented, pfs)

/-- Modelled from the spec: `GetObject` / `FGetObject` of the worker driver
(outside `src/`).  An input bucket is read through its finalized layer; an
output bucket is never readable. -/
def WorkerDriver.GetObject (d : WorkerDriver) (pfs : Pfs) (bucket key : String) :
    Except S3Error Object :=
  match d.bucket bucket with
  | none => .error .NoSuchBucket
  | some (_, .output) => .error .NoSuchKey
  | some (b, .input) =>
    match pfs.finished b.Repo b.Commit key with
    | some (.content o) => .ok o
    | _ => .error .NoSuchKey

/-- Modelled from the spec: `StatObject` of the worker driver (outside `src/`),
same visibility rule as `GetObject`. -/
def WorkerDriver.StatObject (d : WorkerDriver) (pfs : Pfs) (bucket key : String) :
    Except S3Error ObjectInfo :=
  match d.GetObject pfs bucket key with
  | .error e => .error e
  | .ok o => .ok { ETag := o.etag, ContentType := o.contentType, Size := o.data.length }

/-- Modelled from the spec: `PutObject` / `FPutObject` of the worker driver
(outside `src/`).  Rejected on an input bucket; on the output bucket it writes
or overwrites the path in the open commit and reports the byte count written. -/
def WorkerDriver.PutObject (d : WorkerDriver) (pfs : Pfs) (bucket key : String) (o : Object) :
    Except S3Error Nat × Pfs :=
  match d.bucket bucket with
  | none => (.error .NoSuchBucket, pfs)
  | some (_, .input) => (.error .NotImplemented, pfs)
  | some (b, .output) =>
    (.ok o.data.length,
      { pfs with pending := fun r c =>
          if r = b.Repo ∧ c = b.Commit then (pfs.pending r c).write key (.content o)
          else pfs.pending r c })

/-- Modelled from the spec: `RemoveObject` of the worker driver (outside
`src/`).  Rejected on an input bucket; on the output bucket it writes a
tombstone for the path. -/
def WorkerDriver.RemoveObject (d : WorkerDriver) (pfs : Pfs) (bucket key : String) :
    Except S3Error Unit × Pfs :=
  match d.bucket bucket with
  | none => (.error .NoSuchBucket, pfs)
  | some (_, .input) => (.error .NotImplemented, pfs)
  | some (b, .output) =>
    (.ok (),
      { pfs with pending := fun r c =>
          if r = b.Repo ∧ c = b.Commit then (pfs.pending r c).write key .tombstone
          else pfs.pending r c })

/-- A sequence of `PutObject` calls to one bucket: the results, in order, and the
state they leave. -/
def WorkerDriver.putAll (d : WorkerDriver) (bucket : String) :
    Pfs → List (String × Object) → List (Except S3Error Nat) × Pfs
  | pfs, [] => ([], pfs)
  | pfs, (key, o) :: rest =>
    ((d.PutObject pfs bucket key o).1 :: (d.putAll bucket (d.PutObject pfs bucket key o).2 rest).1,
      (d.putAll bucket (d.PutObject pfs bucket key o).2 rest).2)

/-- The driver of `TestWorkerDriver`: `in1` and `in2` over two finished commits
of the input repository, `out` over the open commit of the output repository. -/
def testDriver : WorkerDriver :=
  NewWorkerDriver
    [{ Repo := "input", Commit := "master1", Name := "in1" },
     { Repo := "input", Commit := "develop1", Name := "in2" }]
    { Repo := "output", Commit := "out1", Name := "out" }

/-- The content `foo` as bytes. -/
def fooObject : Object :=
  { data := [102, 111, 111], contentType := "text/plain; charset=utf-8", etag := "acbd18" }

/-- The repositories of `TestWorkerDriver` once `workerListBuckets` created one
more: both input commits hold `file` = `foo`, the output commit is open and
empty. -/
def testPfs : Pfs :=
  { repos := ["input", "output", "testlistbuckets1"],
    finished := fun r c =>
      if r = "input" ∧ (c = "master1" ∨ c = "develop1") then
        (fun p => if p = "file" then some (.content fooObject) else none)
      else fun _ => none,
    pending := fun _ _ _ => none }

end S3

namespace Fileset

/-! ## Theorems -/

theorem replay_length {σ : Type} (cb : σ → File → Option Err × σ) :
    ∀ (fs : List File) (u : σ), (replay cb u fs).1.length = fs.length
  | [], _ => rfl
  | f :: fs, u => by simp [replay, replay_length cb fs]

theorem resolveHook_nil {σ : Type} (cb : σ → File → Option Err × σ) (idx : Index)
    (st : HookState σ) (h : st.mr2.files = []) :
    resolveHook cb idx st = (some st.mr2.fail, st) := by
  simp [resolveHook, MergeReader.Next, h]

theorem resolveHook_cons {σ : Type} (cb : σ → File → Option Err × σ) (idx : Index)
    (st : HookState σ) (f : File) (fs : List File) (h : st.mr2.files = f :: fs) :
    resolveHook cb idx st =
      ((cb st.user (f.withFullIdx idx)).1,
        { mr2 := { st.mr2 with files := fs }, user := (cb st.user (f.withFullIdx idx)).2,
          calls := st.calls ++ [f.withFullIdx idx] }) := by
  simp [resolveHook, MergeReader.Next, h]

/-- The whole pass, described from outside: the Files handed to the callback are
the first `k` Files of the second reader carrying the first `k` finalized
indexes, and the returned error is the first one met. -/
theorem runPass_resolveHook {σ : Type} (cb : σ → File → Option Err × σ) :
    ∀ (is : List Index) (failure : Option Err) (st : HookState σ),
      ∃ new : List File,
        (runPass (resolveHook cb) is failure st).2.calls = st.calls ++ new ∧
        new = List.zipWith File.withFullIdx (st.mr2.files.take new.length)
                (is.take new.length) ∧
        new.length ≤ is.length ∧ new.length ≤ st.mr2.files.length ∧
        (runPass (resolveHook cb) is failure st).2.mr2.files
          = st.mr2.files.drop new.length ∧
        (replay cb st.user new).2 = (runPass (resolveHook cb) is failure st).2.user ∧
        (((replay cb st.user new).1 = List.replicate new.length none ∧
            ((new.length < is.length ∧ new.length = st.mr2.files.length ∧
                (runPass (resolveHook cb) is failure st).1 = some st.mr2.fail) ∨
             (new.length = is.length ∧
                (runPass (resolveHook cb) is failure st).1 = failure))) ∨
         (∃ j e, (replay cb st.user new).1 = List.replicate j none ++ [some e] ∧
            (runPass (resolveHook cb) is failure st).1 = some e)) := by
  intro is
  induction is with
  | nil =>
    intro failure st
    exact ⟨[], by simp [runPass, replay]⟩
  | cons i is ih =>
    intro failure st
    cases hfs : st.mr2.files with
    | nil =>
      refine ⟨[], ?_⟩
      simp [runPass, resolveHook_nil cb i st hfs, replay, hfs]
    | cons f fs =>
      cases hr : (cb st.user (f.withFullIdx i)).1 with
      | some e =>
        refine ⟨[f.withFullIdx i], ?_⟩
        simp only [runPass, resolveHook_cons cb i st f fs hfs, hr]
        simp [replay, hr]
      | none =>
        obtain ⟨new, h1, h2, h3, h4, h5, h6, h7⟩ := ih failure
          { mr2 := { st.mr2 with files := fs }, user := (cb st.user (f.withFullIdx i)).2,
            calls := st.calls ++ [f.withFullIdx i] }
        refine ⟨f.withFullIdx i :: new, ?_⟩
        simp only [runPass, resolveHook_cons cb i st f fs hfs, hr]
        simp only [] at h1 h2 h3 h4 h5 h6 h7
        refine ⟨by simp [h1], ?_, by simpa using h3, by simpa using h4, by simpa using h5,
          by simpa [replay] using h6, ?_⟩
        · simp only [List.length_cons, List.take_succ_cons, List.zipWith_cons_cons]
          rw [← h2]
        · rcases h7 with ⟨ha, hb⟩ | ⟨j, e, hj, he⟩
          · left
            refine ⟨by simp [replay, hr, ha, List.replicate_succ], ?_⟩
            rcases hb with ⟨b1, b2, b3⟩ | ⟨b1, b2⟩
            · left; exact ⟨by simpa using b1, by simpa using b2, b3⟩
            · right; exact ⟨by simpa using b1, b2⟩
          · right
            exact ⟨j + 1, e, by simp [replay, hr, hj, List.replicate_succ], he⟩

theorem replay_of_callback_ok {σ : Type} (cb : σ → File → Option Err × σ)
    (hcb : ∀ u f, (cb u f).1 = none) :
    ∀ (fs : List File) (u : σ), (replay cb u fs).1 = List.replicate fs.length none
  | [], _ => rfl
  | f :: fs, u => by
    simp [replay, hcb, replay_of_callback_ok cb hcb fs, List.replicate_succ]

/-- The pass when the callback never fails: every finalized index is paired with
the next File of the second reader until one of the two runs out. -/
theorem runPass_of_callback_ok {σ : Type} (cb : σ → File → Option Err × σ)
    (hcb : ∀ u f, (cb u f).1 = none) :
    ∀ (is : List Index) (failure : Option Err) (st : HookState σ),
      (runPass (resolveHook cb) is failure st).2.calls
          = st.calls ++ List.zipWith File.withFullIdx st.mr2.files is ∧
      (runPass (resolveHook cb) is failure st).2.mr2.files
          = st.mr2.files.drop is.length ∧
      (runPass (resolveHook cb) is failure st).1
          = if is.length ≤ st.mr2.files.length then failure else some st.mr2.fail := by
  intro is
  induction is with
  | nil => intro failure st; simp [runPass]
  | cons i is ih =>
    intro failure st
    cases hfs : st.mr2.files with
    | nil => simp [runPass, resolveHook_nil cb i st hfs, hfs]
    | cons f fs =>
      have h := ih failure
        { mr2 := { st.mr2 with files := fs }, user := (cb st.user (f.withFullIdx i)).2,
          calls := st.calls ++ [f.withFullIdx i] }
      simp only [] at h
      simp only [runPass, resolveHook_cons cb i st f fs hfs, hcb]
      refine ⟨by simp [h.1], by simp [h.2.1], ?_⟩
      rw [h.2.2]
      simp

theorem mem_zipWith_take {α β γ : Type} (g : α → β → γ) (P : α → β → Prop) :
    ∀ (k : Nat) (as : List α) (bs : List β), (∀ p ∈ List.zip as bs, P p.1 p.2) →
      ∀ c ∈ List.zipWith g (as.take k) (bs.take k), ∃ a b, P a b ∧ c = g a b
  | 0, _, _, _, c, hc => by simp at hc
  | _ + 1, [], _, _, c, hc => by simp at hc
  | _ + 1, _ :: _, [], _, c, hc => by simp at hc
  | k + 1, a :: as, b :: bs, hp, c, hc => by
    simp only [List.take_succ_cons, List.zipWith_cons_cons, List.mem_cons] at hc
    rcases hc with rfl | hc
    · exact ⟨a, b, hp (a, b) (by simp), rfl⟩
    · exact mem_zipWith_take g P k as bs (fun p hp2 => hp p (by simp [hp2])) c hc

theorem Iterate_of_readers {σ : Type} (mr : mergeResolver) (cb : σ → File → Option Err × σ)
    (u : σ) (stopBefore : List String) (mr1 mr2 : MergeReader)
    (h1 : mr.getReader 0 = .ok mr1) (h2 : mr.getReader 1 = .ok mr2) :
    mr.Iterate cb u stopBefore =
      { err := (runPass (resolveHook cb) (mr.s.noUpload mr1).indexes
                  (mr.s.noUpload mr1).failure { mr2 := mr2, user := u, calls := [] }).1,
        user := (runPass (resolveHook cb) (mr.s.noUpload mr1).indexes
                  (mr.s.noUpload mr1).failure { mr2 := mr2, user := u, calls := [] }).2.user,
        calls := (runPass (resolveHook cb) (mr.s.noUpload mr1).indexes
                  (mr.s.noUpload mr1).failure { mr2 := mr2, user := u, calls := [] }).2.calls,
        started := true,
        rest := (runPass (resolveHook cb) (mr.s.noUpload mr1).indexes
                  (mr.s.noUpload mr1).failure
                  { mr2 := mr2, user := u, calls := [] }).2.mr2.files } := by
  simp [mergeResolver.Iterate, h1, h2, MergeReader.WriteTo, Storage.newWriter]

theorem zipWith_take_length {α β γ : Type} (g : α → β → γ) :
    ∀ (as : List α) (bs : List β),
      List.zipWith g (as.take bs.length) bs = List.zipWith g as bs
  | _, [] => by simp
  | [], _ :: _ => by simp
  | a :: as, b :: bs => by simp [zipWith_take_length g as bs]

theorem map_path_zipWith :
    ∀ (fs : List File) (is : List Index), is.length ≤ fs.length →
      (List.zipWith File.withFullIdx fs is).map File.path = (fs.take is.length).map File.path
  | _, [], _ => by simp
  | [], _ :: _, h => by simp at h
  | f :: fs, i :: is, h => by
    have := map_path_zipWith fs is (by simpa using h)
    simp [File.withFullIdx, this]

theorem pull_length : ∀ (fs : List File) (e : Err),
    MergeReader.pull { files := fs, fail := e } fs.length = .error e
  | [], e => by simp [MergeReader.pull, MergeReader.Next]
  | f :: fs, e => by
    simpa [MergeReader.pull, MergeReader.Next] using pull_length fs e

/-- C2: when both readers open, the callback never errors and the second reader
holds at least as many Files as the writer pass finalizes indexes, `Iterate`
invokes the callback once per finalized index, the `k`-th time on the `k`-th File
of the second reader with its full index set to the `k`-th finalized index and
its path and content untouched; the emitted paths are the paths of the second
reader, in its order. -/
theorem Iterate_pairs_by_position {σ : Type} (mr : mergeResolver)
    (cb : σ → File → Option Err × σ) (u : σ) (stopBefore : List String)
    (mr1 mr2 : MergeReader)
    (h1 : mr.getReader 0 = .ok mr1) (h2 : mr.getReader 1 = .ok mr2)
    (hcb : ∀ u f, (cb u f).1 = none)
    (hlen : (mr.s.noUpload mr1).indexes.length ≤ mr2.files.length) :
    (mr.Iterate cb u stopBefore).calls
        = List.zipWith File.withFullIdx mr2.files (mr.s.noUpload mr1).indexes ∧
    (mr.Iterate cb u stopBefore).calls.length = (mr.s.noUpload mr1).indexes.length ∧
    (∀ (k : Nat) (f : File) (i : Index), mr2.files[k]? = some f → (mr.s.noUpload mr1).indexes[k]? = some i →
        (mr.Iterate cb u stopBefore).calls[k]? = some (f.withFullIdx i) ∧
        (f.withFullIdx i).fullIdx = some i ∧ (f.withFullIdx i).path = f.path ∧
        (f.withFullIdx i).content = f.content) ∧
    (mr.Iterate cb u stopBefore).calls.map File.path
        = (mr2.files.take (mr.s.noUpload mr1).indexes.length).map File.path := by
  have h := runPass_of_callback_ok cb hcb (mr.s.noUpload mr1).indexes
    (mr.s.noUpload mr1).failure { mr2 := mr2, user := u, calls := [] }
  simp only [List.nil_append] at h
  rw [Iterate_of_readers mr cb u stopBefore mr1 mr2 h1 h2]
  simp only [h.1]
  refine ⟨trivial, by simp [hlen], ?_, map_path_zipWith _ _ hlen⟩
  intro k f i hf hi
  refine ⟨?_, rfl, rfl, rfl⟩
  simp [List.getElem?_zipWith, hf, hi]

/-- C10: with a callback that never errors, `Iterate` pulls once per finalized
index and never looks at what the second reader still holds: if the writer pass
ends without error and the second reader holds more Files than indexes are
finalized, `Iterate` succeeds after one invocation per index and the surplus
Files stay in the reader; if it holds fewer, `Iterate` returns the error of the
pull that follows the last File, after one invocation per File. -/
theorem Iterate_unbalanced_readers {σ : Type} (mr : mergeResolver)
    (cb : σ → File → Option Err × σ) (u : σ) (stopBefore : List String)
    (mr1 mr2 : MergeReader)
    (h1 : mr.getReader 0 = .ok mr1) (h2 : mr.getReader 1 = .ok mr2)
    (hcb : ∀ u f, (cb u f).1 = none) :
    ((mr.s.noUpload mr1).failure = none →
      (mr.s.noUpload mr1).indexes.length < mr2.files.length →
        (mr.Iterate cb u stopBefore).err = none ∧
        (mr.Iterate cb u stopBefore).calls.length = (mr.s.noUpload mr1).indexes.length ∧
        (mr.Iterate cb u stopBefore).calls
          = List.zipWith File.withFullIdx
              (mr2.files.take (mr.s.noUpload mr1).indexes.length)
              (mr.s.noUpload mr1).indexes ∧
        (mr.Iterate cb u stopBefore).rest
          = mr2.files.drop (mr.s.noUpload mr1).indexes.length ∧
        (mr.Iterate cb u stopBefore).rest.length
          = mr2.files.length - (mr.s.noUpload mr1).indexes.length) ∧
    (mr2.files.length < (mr.s.noUpload mr1).indexes.length →
      ∃ e, mr2.pull mr2.files.length = .error e ∧
        (mr.Iterate cb u stopBefore).err = some e ∧
        (mr.Iterate cb u stopBefore).calls.length = mr2.files.length) := by
  have h := runPass_of_callback_ok cb hcb (mr.s.noUpload mr1).indexes
    (mr.s.noUpload mr1).failure { mr2 := mr2, user := u, calls := [] }
  simp only [List.nil_append] at h
  rw [Iterate_of_readers mr cb u stopBefore mr1 mr2 h1 h2]
  simp only [h.1, h.2.1, h.2.2]
  constructor
  · intro hf hlt
    exact ⟨by simp [hf, Nat.le_of_lt hlt], by simp [Nat.le_of_lt hlt],
      (zipWith_take_length _ _ _).symm, trivial, by simp⟩
  · intro hlt
    refine ⟨mr2.fail, pull_length mr2.files mr2.fail, ?_, by simp [Nat.le_of_lt hlt]⟩
    simp [Nat.not_le_of_lt hlt]

/-- C3 (as amended): `Iterate` never reads `stopBefore`; whatever boundary is
passed, the run is the run without a boundary. -/
theorem Iterate_ignores_stopBefore {σ : Type} (mr : mergeResolver)
    (cb : σ → File → Option Err × σ) (u : σ) (stopBefore : List String) :
    mr.Iterate cb u stopBefore = mr.Iterate cb u [] := rfl

/-- C4: `NewIndexResolver` panics with "cannot resolve indexes" exactly on the
variants that are not a merge source, and on a merge source returns the resolver
holding that source's storage and `getReader`. -/
theorem NewIndexResolver_spec (x : FileSource) (m : mergeSource) :
    (NewIndexResolver x = .error "cannot resolve indexes" ↔ x.isMerge = false) ∧
    ((∃ e, NewIndexResolver x = .error e) ↔ x.isMerge = false) ∧
    NewIndexResolver (.merge m) = .ok (.resolver { s := m.s, getReader := m.getReader }) := by
  cases x <;> simp [NewIndexResolver, FileSource.isMerge]

theorem replicate_none_ne {j k : Nat} {e : Err}
    (h : List.replicate k (none : Option Err) = List.replicate j none ++ [some e]) : False := by
  have hm : some e ∈ List.replicate k (none : Option Err) := by rw [h]; simp
  simpa using (List.mem_replicate.1 hm).2

/-- C5: the first error met by `Iterate` is what it returns, and no callback
follows it.  If opening either reader fails, that error is returned, the
callback is never invoked and no writer pass is started.  Otherwise, with `k`
the number of invocations: the callback was run on the first `k` Files of the
second reader; either all `k` invocations succeeded and the run ended on the
failing pull that followed (returned unchanged) or on the outcome of the writer
pass after its last index, or the last invocation failed and its error is
returned unchanged.  `Iterate` succeeds only when nothing failed. -/
theorem Iterate_first_error {σ : Type} (mr : mergeResolver)
    (cb : σ → File → Option Err × σ) (u : σ) (stopBefore : List String) :
    (∀ e, mr.getReader 0 = .error e →
      (mr.Iterate cb u stopBefore).err = some e ∧ (mr.Iterate cb u stopBefore).calls = [] ∧
      (mr.Iterate cb u stopBefore).started = false ∧ (mr.Iterate cb u stopBefore).user = u) ∧
    (∀ mr1 e, mr.getReader 0 = .ok mr1 → mr.getReader 1 = .error e →
      (mr.Iterate cb u stopBefore).err = some e ∧ (mr.Iterate cb u stopBefore).calls = [] ∧
      (mr.Iterate cb u stopBefore).started = false ∧ (mr.Iterate cb u stopBefore).user = u) ∧
    (∀ mr1 mr2, mr.getReader 0 = .ok mr1 → mr.getReader 1 = .ok mr2 →
      (mr.Iterate cb u stopBefore).started = true ∧
      (mr.Iterate cb u stopBefore).calls
        = List.zipWith File.withFullIdx
            (mr2.files.take (mr.Iterate cb u stopBefore).calls.length)
            ((mr.s.noUpload mr1).indexes.take (mr.Iterate cb u stopBefore).calls.length) ∧
      (mr.Iterate cb u stopBefore).calls.length ≤ (mr.s.noUpload mr1).indexes.length ∧
      (mr.Iterate cb u stopBefore).calls.length ≤ mr2.files.length ∧
      (replay cb u (mr.Iterate cb u stopBefore).calls).2 = (mr.Iterate cb u stopBefore).user ∧
      (((replay cb u (mr.Iterate cb u stopBefore).calls).1
            = List.replicate (mr.Iterate cb u stopBefore).calls.length none ∧
          (((mr.Iterate cb u stopBefore).calls.length < (mr.s.noUpload mr1).indexes.length ∧
              mr2.pull (mr.Iterate cb u stopBefore).calls.length = .error mr2.fail ∧
              (mr.Iterate cb u stopBefore).err = some mr2.fail) ∨
           ((mr.Iterate cb u stopBefore).calls.length = (mr.s.noUpload mr1).indexes.length ∧
              (mr.Iterate cb u stopBefore).err = (mr.s.noUpload mr1).failure))) ∨
        (∃ j e, (replay cb u (mr.Iterate cb u stopBefore).calls).1
              = List.replicate j none ++ [some e] ∧
            (mr.Iterate cb u stopBefore).err = some e)) ∧
      ((mr.Iterate cb u stopBefore).err = none ↔
        (replay cb u (mr.Iterate cb u stopBefore).calls).1
            = List.replicate (mr.Iterate cb u stopBefore).calls.length none ∧
          (mr.Iterate cb u stopBefore).calls.length = (mr.s.noUpload mr1).indexes.length ∧
          (mr.s.noUpload mr1).failure = none)) := by
  refine ⟨?_, ?_, ?_⟩
  · intro e h
    simp [mergeResolver.Iterate, h]
  · intro mr1 e h1 h2
    simp [mergeResolver.Iterate, h1, h2]
  · intro mr1 mr2 h1 h2
    obtain ⟨new, g1, g2, g3, g4, -, g6, g7⟩ :=
      runPass_resolveHook cb (mr.s.noUpload mr1).indexes (mr.s.noUpload mr1).failure
        { mr2 := mr2, user := u, calls := [] }
    simp only [List.nil_append] at g1 g2 g3 g4 g6 g7
    rw [Iterate_of_readers mr cb u stopBefore mr1 mr2 h1 h2]
    simp only [g1]
    have g7' : ((replay cb u new).1 = List.replicate new.length none ∧
          ((new.length < (mr.s.noUpload mr1).indexes.length ∧
              mr2.pull new.length = .error mr2.fail ∧
              (runPass (resolveHook cb) (mr.s.noUpload mr1).indexes
                (mr.s.noUpload mr1).failure { mr2 := mr2, user := u, calls := [] }).1
                = some mr2.fail) ∨
           (new.length = (mr.s.noUpload mr1).indexes.length ∧
              (runPass (resolveHook cb) (mr.s.noUpload mr1).indexes
                (mr.s.noUpload mr1).failure { mr2 := mr2, user := u, calls := [] }).1
                = (mr.s.noUpload mr1).failure))) ∨
        (∃ j e, (replay cb u new).1 = List.replicate j none ++ [some e] ∧
            (runPass (resolveHook cb) (mr.s.noUpload mr1).indexes
                (mr.s.noUpload mr1).failure { mr2 := mr2, user := u, calls := [] }).1
              = some e) := by
      rcases g7 with ⟨a, ⟨b1, b2, b3⟩ | b⟩ | c
      · exact Or.inl ⟨a, Or.inl ⟨b1, by rw [b2]; exact pull_length mr2.files mr2.fail, b3⟩⟩
      · exact Or.inl ⟨a, Or.inr b⟩
      · exact Or.inr c
    refine ⟨trivial, g2, g3, g4, g6, g7', ?_⟩
    constructor
    · intro hn
      rcases g7' with ⟨a, ⟨-, -, b3⟩ | ⟨b1, b2⟩⟩ | ⟨j, e, -, c⟩
      · rw [b3] at hn; cases hn
      · exact ⟨a, b1, by rw [← b2]; exact hn⟩
      · rw [c] at hn; cases hn
    · rintro ⟨a, b, c⟩
      rcases g7' with ⟨-, ⟨b1, -, -⟩ | ⟨-, b2⟩⟩ | ⟨j, e, d, -⟩
      · omega
      · rw [b2]; exact c
      · exact (replicate_none_ne (a.symm.trans d)).elim

/-- C1 (as amended): `Iterate` pairs the `k`-th finalized index with the `k`-th
File of the second reader by position alone.  No path is compared: the Files
handed to the callback are the first Files of the second reader carrying the
first finalized indexes whatever their paths, a run whose callback and writer
pass do not fail succeeds whatever the paths, and every File handed to the
callback carries an index for its own path whenever the two sequences agree on
the path position by position. -/
theorem Iterate_attaches_by_position {σ : Type} (mr : mergeResolver)
    (cb : σ → File → Option Err × σ) (u : σ) (stopBefore : List String)
    (mr1 mr2 : MergeReader)
    (h1 : mr.getReader 0 = .ok mr1) (h2 : mr.getReader 1 = .ok mr2) :
    (mr.Iterate cb u stopBefore).calls
        = List.zipWith File.withFullIdx
            (mr2.files.take (mr.Iterate cb u stopBefore).calls.length)
            ((mr.s.noUpload mr1).indexes.take (mr.Iterate cb u stopBefore).calls.length) ∧
    ((∀ p ∈ List.zip mr2.files (mr.s.noUpload mr1).indexes, p.2.path = p.1.path) →
      ∀ f ∈ (mr.Iterate cb u stopBefore).calls, ∃ i, f.fullIdx = some i ∧ i.path = f.path) ∧
    ((∀ u f, (cb u f).1 = none) → (mr.s.noUpload mr1).failure = none →
      (mr.s.noUpload mr1).indexes.length ≤ mr2.files.length →
      (mr.Iterate cb u stopBefore).err = none ∧
      (mr.Iterate cb u stopBefore).calls.length = (mr.s.noUpload mr1).indexes.length) := by
  obtain ⟨new, g1, g2, -⟩ :=
    runPass_resolveHook cb (mr.s.noUpload mr1).indexes (mr.s.noUpload mr1).failure
      { mr2 := mr2, user := u, calls := [] }
  simp only [List.nil_append] at g1 g2
  rw [Iterate_of_readers mr cb u stopBefore mr1 mr2 h1 h2]
  simp only [g1]
  refine ⟨g2, ?_, ?_⟩
  · intro hp f hf
    rw [g2] at hf
    obtain ⟨a, b, hab, rfl⟩ :=
      mem_zipWith_take File.withFullIdx (fun a b => b.path = a.path) new.length
        mr2.files (mr.s.noUpload mr1).indexes hp f hf
    exact ⟨b, rfl, hab⟩
  · intro hcb hf hlen
    have h := runPass_of_callback_ok cb hcb (mr.s.noUpload mr1).indexes
      (mr.s.noUpload mr1).failure { mr2 := mr2, user := u, calls := [] }
    simp only [List.nil_append] at h
    rw [← g1, h.2.2, h.1]
    simp [hlen, hf]

/-- C1 as stated fails: when the writer pass finalizes an index for `a` and the
second reader yields `b`, `Iterate` succeeds and hands the callback the File `b`
carrying the index computed for `a`. -/
theorem Iterate_path_mismatch_undetected :
    (divergedResolver.Iterate acceptAll () []).err = none ∧
    ∃ f ∈ (divergedResolver.Iterate acceptAll () []).calls,
      ∃ i, f.fullIdx = some i ∧ i.path = "a" ∧ f.path = "b" ∧ i.path ≠ f.path :=
  ⟨by decide, { path := "b", content := [], fullIdx := some (sampleIndex "a" 1) },
    by decide, sampleIndex "a" 1, by decide⟩

theorem Iterate_attaches_by_position_witness :
    surplusResolver.getReader 0
        = .ok { files := [sampleFile "a", sampleFile "b", sampleFile "c"], fail := "EOF" } ∧
    (surplusResolver.Iterate acceptAll () []).err = none ∧
    (surplusResolver.Iterate acceptAll () []).calls.length = 2 :=
  ⟨rfl, (Iterate_attaches_by_position surplusResolver acceptAll () []
      { files := [sampleFile "a", sampleFile "b", sampleFile "c"], fail := "EOF" }
      { files := [sampleFile "a", sampleFile "b", sampleFile "c"], fail := "EOF" }
      rfl rfl).2.2 (fun _ _ => rfl) rfl (by decide)⟩

theorem Iterate_pairs_by_position_witness :
    surplusResolver.getReader 1
        = .ok { files := [sampleFile "a", sampleFile "b", sampleFile "c"], fail := "EOF" } ∧
    (surplusResolver.Iterate acceptAll () []).calls
        = [(sampleFile "a").withFullIdx (sampleIndex "a" 1),
           (sampleFile "b").withFullIdx (sampleIndex "b" 2)] ∧
    (surplusResolver.Iterate acceptAll () []).calls.length = 2 :=
  ⟨rfl, (Iterate_pairs_by_position surplusResolver acceptAll () []
      { files := [sampleFile "a", sampleFile "b", sampleFile "c"], fail := "EOF" }
      { files := [sampleFile "a", sampleFile "b", sampleFile "c"], fail := "EOF" }
      rfl rfl (fun _ _ => rfl) (by decide)).1,
    (Iterate_pairs_by_position surplusResolver acceptAll () []
      { files := [sampleFile "a", sampleFile "b", sampleFile "c"], fail := "EOF" }
      { files := [sampleFile "a", sampleFile "b", sampleFile "c"], fail := "EOF" }
      rfl rfl (fun _ _ => rfl) (by decide)).2.1⟩

theorem Iterate_unbalanced_readers_witness :
    ((surplusResolver.Iterate acceptAll () []).err = none ∧
      (surplusResolver.Iterate acceptAll () []).calls.length = 2 ∧
      (surplusResolver.Iterate acceptAll () []).rest = [sampleFile "c"]) ∧
    ∃ e, (shortResolver.Iterate acceptAll () []).err = some e ∧
      (shortResolver.Iterate acceptAll () []).calls.length = 1 :=
  ⟨⟨((Iterate_unbalanced_readers surplusResolver acceptAll () []
        { files := [sampleFile "a", sampleFile "b", sampleFile "c"], fail := "EOF" }
        { files := [sampleFile "a", sampleFile "b", sampleFile "c"], fail := "EOF" }
        rfl rfl (fun _ _ => rfl)).1 rfl (by decide)).1,
      ((Iterate_unbalanced_readers surplusResolver acceptAll () []
        { files := [sampleFile "a", sampleFile "b", sampleFile "c"], fail := "EOF" }
        { files := [sampleFile "a", sampleFile "b", sampleFile "c"], fail := "EOF" }
        rfl rfl (fun _ _ => rfl)).1 rfl (by decide)).2.1,
      ((Iterate_unbalanced_readers surplusResolver acceptAll () []
        { files := [sampleFile "a", sampleFile "b", sampleFile "c"], fail := "EOF" }
        { files := [sampleFile "a", sampleFile "b", sampleFile "c"], fail := "EOF" }
        rfl rfl (fun _ _ => rfl)).1 rfl (by decide)).2.2.2.1⟩,
    ((Iterate_unbalanced_readers shortResolver acceptAll () []
        { files := [sampleFile "a"], fail := "EOF" } { files := [sampleFile "a"], fail := "EOF" }
        rfl rfl (fun _ _ => rfl)).2 (by decide)).imp (fun _ h => h.2)⟩

/-- C3 as stated fails: with the boundary `b`, the callback is still invoked on
the File at `b`, which is not below the boundary. -/
theorem Iterate_runs_past_stopBefore :
    ∃ f ∈ (surplusResolver.Iterate acceptAll () ["b"]).calls,
      f.path = "b" ∧ ¬ (f.path < "b") :=
  ⟨(sampleFile "b").withFullIdx (sampleIndex "b" 2), by decide, rfl, lt_irrefl _⟩

theorem Iterate_first_error_witness :
    (halfOpenResolver.getReader 1 = .error "open failed" ∧
      (halfOpenResolver.Iterate acceptAll () []).err = some "open failed" ∧
      (halfOpenResolver.Iterate acceptAll () []).calls = [] ∧
      (halfOpenResolver.Iterate acceptAll () []).started = false) ∧
    (surplusResolver.Iterate rejectSecond 0 []).started = true ∧
    (surplusResolver.Iterate rejectSecond 0 []).calls.length ≤ 2 :=
  ⟨⟨rfl, ((Iterate_first_error halfOpenResolver acceptAll () []).2.1
        { files := [sampleFile "a"], fail := "EOF" } "open failed" rfl rfl).1,
      ((Iterate_first_error halfOpenResolver acceptAll () []).2.1
        { files := [sampleFile "a"], fail := "EOF" } "open failed" rfl rfl).2.1,
      ((Iterate_first_error halfOpenResolver acceptAll () []).2.1
        { files := [sampleFile "a"], fail := "EOF" } "open failed" rfl rfl).2.2.1⟩,
    ((Iterate_first_error surplusResolver rejectSecond 0 []).2.2
        { files := [sampleFile "a", sampleFile "b", sampleFile "c"], fail := "EOF" }
        { files := [sampleFile "a", sampleFile "b", sampleFile "c"], fail := "EOF" }
        rfl rfl).1,
    ((Iterate_first_error surplusResolver rejectSecond 0 []).2.2
        { files := [sampleFile "a", sampleFile "b", sampleFile "c"], fail := "EOF" }
        { files := [sampleFile "a", sampleFile "b", sampleFile "c"], fail := "EOF" }
        rfl rfl).2.2.1⟩

/-! ## Sample runs, evaluated -/

/-- A callback error ends the run at once: the second invocation fails, its
error is returned, and the third File is never delivered. -/
theorem sample_callback_error :
    (surplusResolver.Iterate rejectSecond 0 []).err = some "callback failed" ∧
    (surplusResolver.Iterate rejectSecond 0 []).calls.map File.path = ["a", "b"] ∧
    (surplusResolver.Iterate rejectSecond 0 []).user = 2 := by
  decide

/-- A second reader that runs out first ends the run on its error. -/
theorem sample_short_reader :
    (shortResolver.Iterate acceptAll () []).err = some "EOF" ∧
    (shortResolver.Iterate acceptAll () []).calls.map File.path = ["a"] := by
  decide

end Fileset

namespace S3

/-! ## Theorems -/

theorem putAll_of_output (d : WorkerDriver) (bucket : String) (b : Bucket)
    (h : d.bucket bucket = some (b, .output)) :
    ∀ (puts : List (String × Object)) (pfs : Pfs),
      (d.putAll bucket pfs puts).1 = puts.map (fun p => .ok p.2.data.length) ∧
      (d.putAll bucket pfs puts).2.finished = pfs.finished ∧
      (d.putAll bucket pfs puts).2.repos = pfs.repos
  | [], _ => by simp [WorkerDriver.putAll]
  | (key, o) :: rest, pfs => by
    have ih := putAll_of_output d bucket b h rest (d.PutObject pfs bucket key o).2
    simp only [WorkerDriver.putAll, List.map_cons, ih.1, ih.2.1, ih.2.2]
    simp [WorkerDriver.PutObject, h]

/-- C6: on a bucket classified as an input bucket, `PutObject` and
`RemoveObject` both fail with `NotImplemented` and leave the state as it was, so
that `GetObject` and `StatObject` of every key answer as before. -/
theorem input_bucket_rejects_writes (d : WorkerDriver) (pfs : Pfs) (bucket key : String)
    (o : Object) (b : Bucket) (h : d.bucket bucket = some (b, .input)) :
    (d.PutObject pfs bucket key o).1 = .error .NotImplemented ∧
    (d.RemoveObject pfs bucket key).1 = .error .NotImplemented ∧
    (d.PutObject pfs bucket key o).2 = pfs ∧
    (d.RemoveObject pfs bucket key).2 = pfs ∧
    (∀ k, d.GetObject (d.PutObject pfs bucket key o).2 bucket k = d.GetObject pfs bucket k ∧
        d.StatObject (d.PutObject pfs bucket key o).2 bucket k = d.StatObject pfs bucket k ∧
        d.GetObject (d.RemoveObject pfs bucket key).2 bucket k = d.GetObject pfs bucket k ∧
        d.StatObject (d.RemoveObject pfs bucket key).2 bucket k
          = d.StatObject pfs bucket k) := by
  have hp : (d.PutObject pfs bucket key o).2 = pfs := by simp [WorkerDriver.PutObject, h]
  have hr : (d.RemoveObject pfs bucket key).2 = pfs := by simp [WorkerDriver.RemoveObject, h]
  refine ⟨by simp [WorkerDriver.PutObject, h], by simp [WorkerDriver.RemoveObject, h],
    hp, hr, ?_⟩
  intro k
  rw [hp, hr]
  exact ⟨rfl, rfl, rfl, rfl⟩

theorem input_bucket_rejects_writes_witness :
    testDriver.bucket "in1" = some ({ Repo := "input", Commit := "master1", Name := "in1" }, .input) ∧
    (testDriver.PutObject testPfs "in1" "file" fooObject).1 = .error .NotImplemented ∧
    (testDriver.RemoveObject testPfs "in1" "file").1 = .error .NotImplemented :=
  ⟨rfl,
    (input_bucket_rejects_writes testDriver testPfs "in1" "file" fooObject
      { Repo := "input", Commit := "master1", Name := "in1" } rfl).1,
    (input_bucket_rejects_writes testDriver testPfs "in1" "file" fooObject
      { Repo := "input", Commit := "master1", Name := "in1" } rfl).2.1⟩

/-- C7: on a bucket classified as the output bucket, every `PutObject` of a
finite sequence succeeds (repeated keys included), and a `GetObject` of any key
afterwards fails with `NoSuchKey`: what is written to the open commit is not
readable through the same bucket. -/
theorem output_bucket_writes_invisible (d : WorkerDriver) (pfs : Pfs) (bucket : String)
    (b : Bucket) (h : d.bucket bucket = some (b, .output))
    (puts : List (String × Object)) (key : String) :
    (d.putAll bucket pfs puts).1 = puts.map (fun p => .ok p.2.data.length) ∧
    d.GetObject (d.putAll bucket pfs puts).2 bucket key = .error .NoSuchKey ∧
    d.StatObject (d.putAll bucket pfs puts).2 bucket key = .error .NoSuchKey := by
  refine ⟨(putAll_of_output d bucket b h puts pfs).1, ?_, ?_⟩ <;>
    simp [WorkerDriver.StatObject, WorkerDriver.GetObject, h]

theorem output_bucket_writes_invisible_witness :
    testDriver.bucket "out" = some ({ Repo := "output", Commit := "out1", Name := "out" }, .output) ∧
    (testDriver.putAll "out" testPfs [("file", fooObject), ("file", fooObject)]).1
      = [.ok 3, .ok 3] ∧
    testDriver.GetObject
        (testDriver.putAll "out" testPfs [("file", fooObject), ("file", fooObject)]).2
        "out" "file" = .error .NoSuchKey :=
  ⟨rfl,
    (output_bucket_writes_invisible testDriver testPfs "out"
      { Repo := "output", Commit := "out1", Name := "out" } rfl
      [("file", fooObject), ("file", fooObject)] "file").1,
    (output_bucket_writes_invisible testDriver testPfs "out"
      { Repo := "output", Commit := "out1", Name := "out" } rfl
      [("file", fooObject), ("file", fooObject)] "file").2.1⟩

/-- C8: the bucket namespace is the configured set, whatever repositories
exist.  `ListBuckets` returns exactly the names of the input buckets and of the
output bucket, and `BucketExists` answers, without error, whether the name is
one of them. -/
theorem bucket_namespace_is_configuration (d : WorkerDriver) (pfs pfs2 : Pfs)
    (name : String) :
    d.ListBuckets pfs = .ok d.names ∧
    d.ListBuckets pfs = d.ListBuckets pfs2 ∧
    (name ∈ d.names ↔ (∃ b ∈ d.inputBuckets, b.Name = name) ∨ name = d.outputBucket.Name) ∧
    d.BucketExists pfs name = .ok (decide (name ∈ d.names)) ∧
    (d.BucketExists pfs name = .ok true ↔ name ∈ d.names) ∧
    (d.BucketExists pfs name = .ok false ↔ name ∉ d.names) := by
  refine ⟨rfl, rfl, by simp [WorkerDriver.names], rfl, ?_, ?_⟩ <;>
    simp [WorkerDriver.BucketExists]

/-- C9: on the output bucket `RemoveObject` succeeds whether or not the key is
present, succeeds again on the same key, and the second removal leaves the state
the first one produced. -/
theorem RemoveObject_idempotent (d : WorkerDriver) (pfs : Pfs) (bucket key : String)
    (b : Bucket) (h : d.bucket bucket = some (b, .output)) :
    (d.RemoveObject pfs bucket key).1 = .ok () ∧
    (d.RemoveObject (d.RemoveObject pfs bucket key).2 bucket key).1 = .ok () ∧
    (d.RemoveObject (d.RemoveObject pfs bucket key).2 bucket key).2
      = (d.RemoveObject pfs bucket key).2 := by
  refine ⟨by simp [WorkerDriver.RemoveObject, h], by simp [WorkerDriver.RemoveObject, h], ?_⟩
  simp only [WorkerDriver.RemoveObject, h]
  congr 1
  funext r c
  by_cases hrc : r = b.Repo ∧ c = b.Commit
  · simp only [hrc, and_self, if_true]
    funext p
    by_cases hp : p = key <;> simp [Layer.write, hp]
  · simp [hrc]

theorem RemoveObject_idempotent_witness :
    testDriver.bucket "out" = some ({ Repo := "output", Commit := "out1", Name := "out" }, .output) ∧
    (testDriver.RemoveObject testPfs "out" "file").1 = .ok () ∧
    (testDriver.RemoveObject (testDriver.RemoveObject testPfs "out" "file").2 "out" "file").1
      = .ok () :=
  ⟨rfl,
    (RemoveObject_idempotent testDriver testPfs "out" "file"
      { Repo := "output", Commit := "out1", Name := "out" } rfl).1,
    (RemoveObject_idempotent testDriver testPfs "out" "file"
      { Repo := "output", Commit := "out1", Name := "out" } rfl).2.1⟩

/-! ## The scenarios of `worker_test.go`, evaluated on the model -/

/-- The scenarios `workerGetObject` and `workerStatObject`. -/
theorem scenario_read_input :
    testDriver.GetObject testPfs "in1" "file" = .ok fooObject ∧
    testDriver.StatObject testPfs "in1" "file"
      = .ok { ETag := "acbd18", ContentType := "text/plain; charset=utf-8", Size := 3 } :=
  ⟨rfl, rfl⟩

/-- The scenarios `workerGetObjectOutputRepo` and `workerLargeObjects`: an unknown
bucket is `NoSuchBucket`, the output bucket is `NoSuchKey`. -/
theorem scenario_read_output :
    testDriver.GetObject testPfs "out" "file" = .error .NoSuchKey ∧
    testDriver.GetObject testPfs "foobar" "file" = .error .NoSuchBucket ∧
    (testDriver.PutObject testPfs "foobar" "file" fooObject).1 = .error .NoSuchBucket ∧
    (testDriver.PutObject testPfs "out" "file" fooObject).1 = .ok 3 :=
  ⟨rfl, rfl, rfl, rfl⟩

/-- The scenarios `workerListBuckets`, `workerBucketExists` and `workerMakeBucket`. -/
theorem scenario_buckets :
    testDriver.ListBuckets testPfs = .ok ["in1", "in2", "out"] ∧
    testDriver.BucketExists testPfs "in1" = .ok true ∧
    testDriver.BucketExists testPfs "out" = .ok true ∧
    testDriver.BucketExists testPfs "foobar" = .ok false ∧
    (testDriver.MakeBucket testPfs "testmakebucket").1 = .error .NotImplemented :=
  ⟨rfl, rfl, rfl, rfl, rfl⟩

end S3
